import Mathlib

/-
Verification of the market-data streaming core of the algo-trade repository.

The definitions below are shallow embeddings of the JavaScript source:
byte buffers become `List Nat` (each element a byte value), JavaScript
numbers used as prices become `ℚ`, fallible byte reads become `Option`,
the try/catch of `extractBestFiveData` becomes an `Except` wrapper, and
the stateful subscription registry becomes explicit state passing over
association lists that mirror the insertion-order semantics of JavaScript
Map and Set objects.
-/

/-! ## Byte-buffer primitives (DataView / Buffer reads, little-endian) -/

/-- Little-endian value of a list of bytes (first byte is least significant). -/
def leNat (bs : List Nat) : Nat := bs.foldr (fun b acc => b + 256 * acc) 0

/-- Read `len` bytes at `pos` as an unsigned little-endian natural.
Returns `none` when the read is out of bounds, which in the source raises
a RangeError caught by the surrounding try/catch. -/
def readLE (bytes : List Nat) (pos len : Nat) : Option Nat :=
  if pos + len ≤ bytes.length then some (leNat ((bytes.drop pos).take len)) else none

/-- Reinterpret an unsigned `w`-bit value as a signed integer (two's complement). -/
def toSigned (w : Nat) (n : Nat) : Int :=
  if n % 2 ^ w < 2 ^ (w - 1) then ((n % 2 ^ w : Nat) : Int) else ((n % 2 ^ w : Nat) : Int) - 2 ^ w

/-- Buffer.readInt16LE / DataView.getInt16 with bounds checking. -/
def readInt16LE (bytes : List Nat) (pos : Nat) : Option Int :=
  (readLE bytes pos 2).map (toSigned 16)

/-- DataView.getInt32(pos, true) with bounds checking. -/
def readInt32LE (bytes : List Nat) (pos : Nat) : Option Int :=
  (readLE bytes pos 4).map (toSigned 32)

/-- Buffer.readBigInt64LE with bounds checking. -/
def readBigInt64LE (bytes : List Nat) (pos : Nat) : Option Int :=
  (readLE bytes pos 8).map (toSigned 64)

/-- DataView.getBigUint64(pos, true) with bounds checking. -/
def readBigUint64LE (bytes : List Nat) (pos : Nat) : Option Nat :=
  readLE bytes pos 8

/-! ## Price conversion (part_002, `convertPrice`) -/

/-- Embeds `convertPrice(rawPrice, exchangeType)`: for the currency segment
(code 13) divide by 10000000.0, for every other segment divide by 100. -/
def convertPrice (rawPrice : Int) (exchangeType : Nat) : ℚ :=
  if exchangeType = 13 then (rawPrice : ℚ) / 10000000 else (rawPrice : ℚ) / 100

/-- Divisor of an exchange segment as the specification states it:
10 000 000 for segment 13, else 100. -/
def segmentDivisor (exchangeType : Nat) : ℚ :=
  if exchangeType = 13 then 10000000 else 100

/-! ## Binary decoder, LTP portion (part_002, `handleDataTicks`) -/

/-- Token characters of a frame: bytes 2..26 up to the first null byte
(the `for (let i = 2; i < 27; ...)` loop of `handleDataTicks`). -/
def tokenChars (bytes : List Nat) : List Nat :=
  ((bytes.drop 2).take 25).takeWhile (fun b => b ≠ 0)

/-- Decoded header plus last-traded-price of a data frame, the fields of the
`response` object of `handleDataTicks` that every mode of at least 1 shares. -/
structure LTPTick where
  mode : Nat
  exchangeTypeCode : Nat
  token : List Nat
  sequenceNumber : Nat
  rawExchangeTimestamp : Nat
  lastTradedPrice : ℚ
deriving Repr, DecidableEq

/-- Embeds the header and LTP extraction of `handleDataTicks`.
Mode is byte 0, the exchange code is byte 1, the token is a null-terminated
string at bytes 2..26, the sequence is a u64 at 27, the timestamp a u64 at 35
and the last price a signed int32 at 43 scaled by `convertPrice`.
The result is `none` exactly when the source yields no decoded price:
an empty token returns null, a mode below 1 never reads the price field, and
a buffer shorter than 47 bytes makes one of the header or price reads throw,
which the source catches and turns into an error result without a price. -/
def handleDataTicks (bytes : List Nat) : Option LTPTick :=
  if bytes.length < 47 then none
  else if tokenChars bytes = [] then none
  else if bytes.getD 0 0 < 1 then none
  else
    match readBigUint64LE bytes 27, readBigUint64LE bytes 35, readInt32LE bytes 43 with
    | some seq, some ts, some ltpRaw =>
        some { mode := bytes.getD 0 0, exchangeTypeCode := bytes.getD 1 0,
               token := tokenChars bytes,
               sequenceNumber := seq, rawExchangeTimestamp := ts,
               lastTradedPrice := convertPrice ltpRaw (bytes.getD 1 0) }
    | _, _, _ => none

/-! ## Best-five extraction (part_002, `extractBestFiveData`) -/

/-- One decoded order-book level as pushed by `extractBestFiveData`. -/
structure BestFiveLevel where
  quantity : Int
  price : ℚ
  orders : Int
deriving Repr, DecidableEq

/-- Result shape of `extractBestFiveData`. -/
structure BestFiveData where
  buy : List BestFiveLevel
  sell : List BestFiveLevel
deriving Repr, DecidableEq

/-- One raw 20-byte best-five entry: side flag i16, quantity i64,
raw price i64, order count i16. -/
structure RawDepthEntry where
  buyFlag : Int
  quantity : Int
  rawPrice : Int
  orders : Int
deriving Repr, DecidableEq

/-- Read one raw 20-byte entry at `pos`:
flag at +0 (i16), quantity at +2 (i64), raw price at +10 (i64),
order count at +18 (i16), all little-endian. -/
def entryAt (bytes : List Nat) (pos : Nat) : Option RawDepthEntry := do
  let flag ← readInt16LE bytes pos
  let qty ← readBigInt64LE bytes (pos + 2)
  let raw ← readBigInt64LE bytes (pos + 10)
  let ord ← readInt16LE bytes (pos + 18)
  pure ⟨flag, qty, raw, ord⟩

/-- Level built from a raw entry: price is the raw i64 divided by 100. -/
def toLevel (e : RawDepthEntry) : BestFiveLevel :=
  ⟨e.quantity, (e.rawPrice : ℚ) / 100, e.orders⟩

/-- Indexes of the ten 20-byte entries that are read before the bounds check
`pos + entrySize > buffer.length` breaks the loop. The source runs two loops,
0..4 and 5..9, each breaking on the first out-of-bounds entry; because the
positions grow with the index the second loop then also breaks at once, so a
single `takeWhile` over 0..9 is the exact same set of reads in the same
order. -/
def depthPositions (bytes : List Nat) (startPosition : Nat) : List Nat :=
  (List.range 10).takeWhile (fun i => startPosition + i * 20 + 20 ≤ bytes.length)

/-- Read the raw entries at the given indexes; a failing read raises, which
the embedding models as `Except.error`. -/
def collectEntries (bytes : List Nat) (startPosition : Nat) :
    List Nat → Except String (List RawDepthEntry)
  | [] => .ok []
  | i :: is =>
    match entryAt bytes (startPosition + i * 20) with
    | some e => (collectEntries bytes startPosition is).map (fun l => e :: l)
    | none => .error "read out of bounds"

/-- The raw entries actually collected, as a total function. -/
def rawEntriesOf (bytes : List Nat) (startPosition : Nat) : List RawDepthEntry :=
  (depthPositions bytes startPosition).filterMap (fun i => entryAt bytes (startPosition + i * 20))

/-- Body of `extractBestFiveData` before its catch-all: collect up to ten
20-byte entries, skip entries whose side flag is neither 0 nor 1, put
flag 1 entries in `buy` and flag 0 entries in `sell`, sort buy by price
descending and sell by price ascending (the source uses the stable
Array.prototype.sort with numeric comparators; `insertionSort` is a stable
sort, so the result agrees), then truncate each side to 5. -/
def extractBestFiveDataCore (bytes : List Nat) (startPosition : Nat) :
    Except String BestFiveData := do
  let entries ← collectEntries bytes startPosition (depthPositions bytes startPosition)
  let buy := (entries.filter (fun e => e.buyFlag == 1)).map toLevel
  let sell := (entries.filter (fun e => e.buyFlag == 0)).map toLevel
  let buySorted := List.insertionSort (fun a b => b.price ≤ a.price) buy
  let sellSorted := List.insertionSort (fun a b => a.price ≤ b.price) sell
  pure ⟨buySorted.take 5, sellSorted.take 5⟩

/-- Embeds `extractBestFiveData` including its catch clause, which returns
the empty structure on any internal extraction error. -/
def extractBestFiveData (bytes : List Nat) (startPosition : Nat) : BestFiveData :=
  match extractBestFiveDataCore bytes startPosition with
  | .ok r => r
  | .error _ => ⟨[], []⟩

/-! ## Inbound frame classification (part_002, `handleWebSocketMessage`
and `handleLTPWebSocketMessage`) -/

/-- Outcome of the binary-frame dispatch in the message handlers. -/
inductive FrameClass where
  | tick
  | ack
  | other
  | empty
deriving Repr, DecidableEq

/-- Embeds the binary branch of `handleWebSocketMessage`: an empty message is
ignored; a 51-byte frame with first byte 1 goes to `handleDataTicks`; else a
frame with byte 2 equal to 0x37 goes to `handleAcknowledgmentMessage`; any
other frame goes to `processBinaryMessage`. -/
def classifyBinaryFrame (bytes : List Nat) : FrameClass :=
  if bytes.length = 0 then .empty
  else if bytes.length = 51 ∧ bytes.getD 0 0 = 1 then .tick
  else if 2 < bytes.length ∧ bytes.getD 2 0 = 0x37 then .ack
  else .other

/-- Embeds the binary branch of `handleLTPWebSocketMessage`: an empty message
is ignored; any frame with first byte 1, whatever its size, goes to
`handleDataTicks`; else a frame with byte 2 equal to 0x37 is handled as an
acknowledgement; anything else is dropped. -/
def classifyLTPBinaryFrame (bytes : List Nat) : FrameClass :=
  if bytes.length = 0 then .empty
  else if bytes.getD 0 0 = 1 then .tick
  else if 2 < bytes.length ∧ bytes.getD 2 0 = 0x37 then .ack
  else .other

/-! ## Reconnect policy (part_002, `handleLTPReconnect` and constants) -/

/-- Constant from part_002 line 47. -/
def MAX_RECONNECT_ATTEMPTS : Nat := 10

/-- Constant from part_002 line 48, in milliseconds. -/
def RECONNECT_DELAY : ℚ := 5000

/-- What one invocation of `handleLTPReconnect` does besides updating the
attempt counter: either a reconnect is scheduled after the given delay in
milliseconds, or the connection gives up, logging the unrecoverable
maximum-attempts error and scheduling nothing further. -/
inductive ReconnectAction where
  | scheduled (delayMs : ℚ)
  | gaveUp
deriving Repr, DecidableEq

/-- Embeds `handleLTPReconnect`: when the attempt counter is below the cap it
is incremented and a reconnect is scheduled after
`RECONNECT_DELAY * 1.5 ^ (attempts - 1)` milliseconds; otherwise the
connection gives up. The float arithmetic of the source is exact here
because every value 5000 * 1.5 ^ k for k below 10 is a binary64 number. -/
def handleLTPReconnect (ltpReconnectAttempts : Nat) : Nat × ReconnectAction :=
  if ltpReconnectAttempts < MAX_RECONNECT_ATTEMPTS then
    (ltpReconnectAttempts + 1,
     .scheduled (RECONNECT_DELAY * (3 / 2 : ℚ) ^ ltpReconnectAttempts))
  else (ltpReconnectAttempts, .gaveUp)

/-- Attempt counter after `n` invocations of `handleLTPReconnect` in one
connection epoch; the epoch starts with the counter at 0. -/
def reconnectAttemptsAfter : Nat → Nat
  | 0 => 0
  | n + 1 => (handleLTPReconnect (reconnectAttemptsAfter n)).1

/-! ## Tick dispatcher (part_002, `updateSymbolPrice` and `updateMarketDepth`) -/

/-- Steps observable from `updateSymbolPrice`: the Redis SET of the snapshot,
the error log of its catch, the publish on the price:update channel, and the
error log of the publish catch. -/
inductive DispatchStep where
  | storeWrite
  | storeErrorLog
  | publishPrice
  | publishErrorLog
deriving Repr, DecidableEq

/-- Embeds the step structure of `updateSymbolPrice` as a function of which
injected effects fail: the store write is always attempted; when it fails the
error is logged and the function returns early; otherwise the publish is
attempted and a publish failure is logged without affecting anything else. -/
def updateSymbolPriceTrace (storeOk publishOk : Bool) : List DispatchStep :=
  [.storeWrite] ++
    (if storeOk then
      [.publishPrice] ++ (if publishOk then [] else [.publishErrorLog])
    else [.storeErrorLog])

/-- Key of the latest-price snapshot written by `updateSymbolPrice`. -/
def priceKey (symbol : String) : String := "price:" ++ symbol

/-- Key of the depth snapshot written by `updateMarketDepth`. -/
def depthKey (symbol : String) : String := "marketdepth:" ++ symbol

/-- Tick fields consumed by `updateSymbolPrice`; absent fields are `none` and
the source replaces them by 0 via `|| 0`. -/
structure TickData where
  ltp : Option ℚ
  openPrice : Option ℚ
  high : Option ℚ
  low : Option ℚ
  close : Option ℚ
  totBuyQty : Option ℚ
  totSellQty : Option ℚ
  volume : Option ℚ
deriving Repr, DecidableEq

/-- The JSON snapshot value stored under the price key. -/
structure PriceSnapshot where
  symbol : String
  token : String
  lastPrice : ℚ
  openPrice : ℚ
  high : ℚ
  low : ℚ
  close : ℚ
  totalBuyQty : ℚ
  totalSellQty : ℚ
  volume : ℚ
  lastUpdateTime : Nat
deriving Repr, DecidableEq

/-- Embeds the key/value pair `updateSymbolPrice` writes to the store:
key `price:` followed by the symbol, value the snapshot built from the tick
with 0 defaults and the current time. -/
def updateSymbolPriceWrite (symbol token : String) (t : TickData) (now : Nat) :
    String × PriceSnapshot :=
  (priceKey symbol,
   { symbol := symbol, token := token,
     lastPrice := t.ltp.getD 0, openPrice := t.openPrice.getD 0,
     high := t.high.getD 0, low := t.low.getD 0, close := t.close.getD 0,
     totalBuyQty := t.totBuyQty.getD 0, totalSellQty := t.totSellQty.getD 0,
     volume := t.volume.getD 0, lastUpdateTime := now })

/-- The JSON depth value stored under the depth key. -/
structure DepthSnapshot where
  symbol : String
  token : String
  lastPrice : ℚ
  bestFive : BestFiveData
  lastUpdateTime : Nat
deriving Repr, DecidableEq

/-- Embeds the key/value pair `updateMarketDepth` writes to the store for a
snap-quote tick: key `marketdepth:` followed by the symbol. -/
def updateMarketDepthWrite (symbol token : String) (lastPrice : ℚ)
    (bestFive : BestFiveData) (now : Nat) : String × DepthSnapshot :=
  (depthKey symbol,
   { symbol := symbol, token := token, lastPrice := lastPrice,
     bestFive := bestFive, lastUpdateTime := now })

/-! ## Order-plan evaluator (part_003, `updateOrderPlanPrice`) -/

/-- The fields of an order plan the evaluator reads. `entry_price` is `none`
when `plan.entry_price` is absent or falsy, in which case the transition
block of the source is skipped entirely; `exit_price` is the parsed
`plan.exit_price`. Statuses and the transaction type are the literal strings
of the source. -/
structure OrderPlan where
  transactiontype : String
  status : String
  entry_price : Option ℚ
  exit_price : ℚ
deriving Repr, DecidableEq

/-- The `updates` object built by one evaluation: `currentPrice` and
`lastUpdated` are always set; `status` is set only when a transition fires. -/
structure PlanUpdates where
  currentPrice : ℚ
  lastUpdated : Nat
  status : Option String
deriving Repr, DecidableEq

/-- Embeds the evaluation core of `updateOrderPlanPrice` in part_003.
The current price is the LTP of the tick. When an entry price is present:
for a BUY plan, price at or below entry with status CREATED triggers entry,
else price at or above exit with status in CREATED or ENTRY_TRIGGERED
triggers exit; for any other transaction type the SELL branch runs with the
two comparisons mirrored. The else-if chain of the source makes the entry
check take precedence over the exit check. -/
def updateOrderPlanPrice (plan : OrderPlan) (ltp : ℚ) (now : Nat) : PlanUpdates :=
  let currentPrice := ltp
  let newStatus : Option String :=
    match plan.entry_price with
    | none => none
    | some entryPrice =>
      if plan.transactiontype = "BUY" then
        if currentPrice ≤ entryPrice ∧ plan.status = "CREATED" then
          some "ENTRY_TRIGGERED"
        else if plan.exit_price ≤ currentPrice ∧
            (plan.status = "ENTRY_TRIGGERED" ∨ plan.status = "CREATED") then
          some "EXIT_TRIGGERED"
        else none
      else
        if entryPrice ≤ currentPrice ∧ plan.status = "CREATED" then
          some "ENTRY_TRIGGERED"
        else if currentPrice ≤ plan.exit_price ∧
            (plan.status = "ENTRY_TRIGGERED" ∨ plan.status = "CREATED") then
          some "EXIT_TRIGGERED"
        else none
  { currentPrice := currentPrice, lastUpdated := now, status := newStatus }

/-- Status of the plan after the updates object is applied: the new status
when a transition fired, the old status otherwise. -/
def planStatusAfter (plan : OrderPlan) (ltp : ℚ) (now : Nat) : String :=
  ((updateOrderPlanPrice plan ltp now).status).getD plan.status

/-! ## Subscription registry (part_002, `subscribeToOrderPlan` and
`unsubscribeFromOrderPlan`) -/

/-- Association-list lookup mirroring Map.prototype.get. -/
def mapGet (m : List (String × α)) (k : String) : Option α :=
  (m.find? (fun e => e.1 == k)).map (fun e => e.2)

/-- Association-list update mirroring Map.prototype.set: replace the value in
place when the key is present, append otherwise. -/
def mapSet (m : List (String × α)) (k : String) (v : α) : List (String × α) :=
  if (m.find? (fun e => e.1 == k)).isSome then
    m.map (fun e => if e.1 == k then (k, v) else e)
  else m ++ [(k, v)]

/-- Association-list removal mirroring Map.prototype.delete. -/
def mapDelete (m : List (String × α)) (k : String) : List (String × α) :=
  m.filter (fun e => !(e.1 == k))

/-- Set.prototype.add on the insertion-ordered element list. -/
def setAdd (s : List String) (p : String) : List String :=
  if p ∈ s then s else s ++ [p]

/-- Set.prototype.delete on the insertion-ordered element list. -/
def setDelete (s : List String) (p : String) : List String := s.erase p

/-- The module-level subscription state: `subscriptions` maps a token to the
set of plan ids bound to it, with the two symbol index maps. -/
structure Registry where
  subscriptions : List (String × List String)
  tokenToSymbolMap : List (String × String)
  symbolToTokenMap : List (String × String)
deriving Repr, DecidableEq

/-- Outgoing feed side-effects of the registry operations. -/
inductive FeedMsg where
  | subscribeLTP (token : String)
  | subscribeDepth (token : String)
  | unsubscribe (token : String)
deriving Repr, DecidableEq

/-- The `if (!subscriptions.has(token)) subscriptions.set(token, new Set())`
step of `subscribeToOrderPlan`. -/
def initTokenSet (reg : Registry) (token : String) : List (String × List String) :=
  if (mapGet reg.subscriptions token).isSome then reg.subscriptions
  else mapSet reg.subscriptions token []

/-- Embeds `subscribeToOrderPlan` for a plan whose record carries the given
token, symbol and exchange: both index maps are set, the subscription set of
the token is created when absent and the plan id added, and a subscribe is
sent on each connection that is READY with an open socket (`ltpReady`,
`depthReady`). -/
def subscribeToOrderPlan (reg : Registry) (planId token symbol : String)
    (ltpReady depthReady : Bool) : Registry × List FeedMsg :=
  ({ subscriptions := mapSet (initTokenSet reg token) token
       (setAdd ((mapGet (initTokenSet reg token) token).getD []) planId),
     tokenToSymbolMap := mapSet reg.tokenToSymbolMap token symbol,
     symbolToTokenMap := mapSet reg.symbolToTokenMap symbol token },
   (if ltpReady then [FeedMsg.subscribeLTP token] else []) ++
   (if depthReady then [FeedMsg.subscribeDepth token] else []))

/-- Loop body of `unsubscribeFromOrderPlan` over the snapshot of the
subscription entries: remove the plan id from every set that holds it; when a
set becomes empty, `unsubscribeFromToken` sends the unsubscribe (only when
the socket is open and the token still resolves to a symbol, which it does
here because the index is deleted only afterwards), then the subscription
entry and both index entries are deleted. -/
def unsubscribeLoop (planId : String) (wsOpen : Bool) :
    List (String × List String) → Registry → List FeedMsg → Registry × List FeedMsg
  | [], st, evs => (st, evs)
  | (token, planIds) :: rest, st, evs =>
    if planId ∈ planIds then
      let newIds := setDelete planIds planId
      if newIds.isEmpty then
        let evs2 := evs ++ (if wsOpen && (mapGet st.tokenToSymbolMap token).isSome
                            then [FeedMsg.unsubscribe token] else [])
        let s2t := match mapGet st.tokenToSymbolMap token with
          | some sym => mapDelete st.symbolToTokenMap sym
          | none => st.symbolToTokenMap
        unsubscribeLoop planId wsOpen rest
          { subscriptions := mapDelete st.subscriptions token,
            tokenToSymbolMap := mapDelete st.tokenToSymbolMap token,
            symbolToTokenMap := s2t } evs2
      else
        unsubscribeLoop planId wsOpen rest
          { st with subscriptions := mapSet st.subscriptions token newIds } evs
    else unsubscribeLoop planId wsOpen rest st evs

/-- Embeds `unsubscribeFromOrderPlan`. -/
def unsubscribeFromOrderPlan (reg : Registry) (planId : String) (wsOpen : Bool) :
    Registry × List FeedMsg :=
  unsubscribeLoop planId wsOpen reg.subscriptions reg []

/-! ## Concrete frames and records used by witnesses and counterexamples -/

/-- A 51-byte mode-1 frame: mode 1, exchange code 1, token the single
character 1 (byte 49), zero sequence and timestamp, and raw LTP 9950
(bytes 43..46 little-endian), which scales to 99.50. -/
def exampleLTPFrame : List Nat :=
  [1, 1, 49] ++ List.replicate 40 0 ++ [222, 38, 0, 0] ++ [0, 0, 0, 0]

/-- A 51-byte frame whose first byte is 1 and whose byte 2 is 0x37: the shape
of an acknowledgement that the 51-byte-tick branch captures first. -/
def ambiguousAckFrame : List Nat :=
  [1, 0, 0x37] ++ List.replicate 48 0

/-- Example tick record for the dispatcher claims. -/
def exampleTick : TickData :=
  { ltp := some (199 / 2), openPrice := none, high := none, low := none,
    close := none, totBuyQty := none, totSellQty := none, volume := none }

/-- BUY plan with entry 100 and exit 90 (a stop below the entry), still in
status CREATED: at price 95 both the entry and the exit guard hold. -/
def overlapPlan : OrderPlan :=
  { transactiontype := "BUY", status := "CREATED",
    entry_price := some 100, exit_price := 90 }

/-- BUY plan with entry 100 and exit 110 in status CREATED. -/
def buyPlan : OrderPlan :=
  { transactiontype := "BUY", status := "CREATED",
    entry_price := some 100, exit_price := 110 }

/-- SELL plan with entry 100 and exit 90 in status CREATED. -/
def sellPlan : OrderPlan :=
  { transactiontype := "SELL", status := "CREATED",
    entry_price := some 100, exit_price := 90 }

/-- Plan already executed: a terminal status. -/
def executedPlan : OrderPlan :=
  { transactiontype := "BUY", status := "EXECUTED",
    entry_price := some 100, exit_price := 110 }

/-- The BUY plan after its entry has triggered. -/
def triggeredPlan : OrderPlan :=
  { transactiontype := "BUY", status := "ENTRY_TRIGGERED",
    entry_price := some 100, exit_price := 110 }

/-! ## Well-formedness of the registry state

JavaScript Map and Set objects cannot hold a key twice, so every state the
module variables can reach has unique keys in each map; these predicates
express that and the cross-map consistency the registry operations maintain. -/

/-- Keys of each of the three maps are unique, as they are in a Map object. -/
def RegistryWF (reg : Registry) : Prop :=
  (reg.subscriptions.map Prod.fst).Nodup ∧
  (reg.tokenToSymbolMap.map Prod.fst).Nodup ∧
  (reg.symbolToTokenMap.map Prod.fst).Nodup

/-- Consistency of the indexes at a token and its symbol: either the token is
unknown to all three maps, or it has a non-empty holder set and the two
symbol indexes agree with it. Every state reached by the registry operations
from the empty state satisfies this. -/
def ConsistentAt (reg : Registry) (token symbol : String) : Prop :=
  match mapGet reg.subscriptions token with
  | none => mapGet reg.tokenToSymbolMap token = none ∧
            mapGet reg.symbolToTokenMap symbol = none
  | some l => l ≠ [] ∧ mapGet reg.tokenToSymbolMap token = some symbol ∧
              mapGet reg.symbolToTokenMap symbol = some token

/-- The plan id is not yet bound to any token. -/
def planFresh (reg : Registry) (planId : String) : Prop :=
  ∀ e ∈ reg.subscriptions, planId ∉ e.2

/-- Registry holding one other plan p0 on token 101. -/
def occupiedRegistry : Registry :=
  { subscriptions := [("101", ["p0"])],
    tokenToSymbolMap := [("101", "X")],
    symbolToTokenMap := [("X", "101")] }

/-! ## Theorems: binary decoder -/

/-- Claim C2: for every decoded binary data frame, the decoded
last-traded-price equals the signed little-endian int32 read at bytes 43..46
divided by the segment divisor, where the divisor is 10 000 000 when the
exchange-code byte (byte 1) is 13 and 100 for every other exchange code. -/
theorem decoded_ltp_eq_int32_div_segmentDivisor (bytes : List Nat) (t : LTPTick)
    (h : handleDataTicks bytes = some t) :
    ∃ raw : Int, readInt32LE bytes 43 = some raw ∧
      t.exchangeTypeCode = bytes.getD 1 0 ∧
      t.lastTradedPrice = (raw : ℚ) / segmentDivisor t.exchangeTypeCode := by
  unfold handleDataTicks at h
  split at h
  · exact absurd h (by simp)
  split at h
  · exact absurd h (by simp)
  split at h
  · exact absurd h (by simp)
  split at h
  · rename_i seq ts ltpRaw hseq hts hraw
    obtain rfl := Option.some.inj h
    refine ⟨ltpRaw, hraw, rfl, ?_⟩
    simp only [convertPrice, segmentDivisor]
    split <;> rfl
  · exact absurd h (by simp)

/-- Witness for C2 at a concrete 51-byte mode-1 frame with raw price 9950 and
exchange code 1. -/
theorem decoded_ltp_eq_int32_div_segmentDivisor_witness :
    ∃ t, handleDataTicks exampleLTPFrame = some t ∧
      ∃ raw : Int, readInt32LE exampleLTPFrame 43 = some raw ∧
        t.exchangeTypeCode = exampleLTPFrame.getD 1 0 ∧
        t.lastTradedPrice = (raw : ℚ) / segmentDivisor t.exchangeTypeCode :=
  ⟨_, rfl, decoded_ltp_eq_int32_div_segmentDivisor exampleLTPFrame _ rfl⟩

/-! ## Theorems: frame classification -/

/-- Counterexample to claim C4: a 51-byte frame whose byte 2 is 0x37 but
whose first byte is 1 is dispatched to the tick decoder, not to the
acknowledgement handler, by both message handlers. -/
theorem ack_frame_with_mode_byte_is_tick :
    ambiguousAckFrame.length = 51 ∧ ambiguousAckFrame.getD 2 0 = 0x37 ∧
    classifyBinaryFrame ambiguousAckFrame = FrameClass.tick ∧
    classifyBinaryFrame ambiguousAckFrame ≠ FrameClass.ack ∧
    classifyLTPBinaryFrame ambiguousAckFrame = FrameClass.tick := by decide

/-- Claim C4 as amended: a 51-byte frame with byte 2 equal to 0x37 is
classified as an acknowledgement if and only if its first byte is not 1;
when the first byte is 1 both handlers process it as a tick. -/
theorem ack_classification_depends_on_first_byte (bytes : List Nat)
    (h51 : bytes.length = 51) (h37 : bytes.getD 2 0 = 0x37) :
    (classifyBinaryFrame bytes = FrameClass.ack ↔ bytes.getD 0 0 ≠ 1) ∧
    (bytes.getD 0 0 = 1 → classifyBinaryFrame bytes = FrameClass.tick) ∧
    (classifyLTPBinaryFrame bytes = FrameClass.ack ↔ bytes.getD 0 0 ≠ 1) ∧
    (bytes.getD 0 0 = 1 → classifyLTPBinaryFrame bytes = FrameClass.tick) := by
  have h0 : ¬ bytes.length = 0 := by omega
  unfold classifyBinaryFrame classifyLTPBinaryFrame
  rw [if_neg h0, if_neg h0]
  by_cases h1 : bytes.getD 0 0 = 1
  · rw [if_pos ⟨h51, h1⟩, if_pos h1]
    exact ⟨⟨fun hc => absurd hc (by decide), fun hn => absurd h1 hn⟩, fun _ => rfl,
           ⟨fun hc => absurd hc (by decide), fun hn => absurd h1 hn⟩, fun _ => rfl⟩
  · rw [if_neg (fun hc : bytes.length = 51 ∧ bytes.getD 0 0 = 1 => h1 hc.2), if_neg h1,
      if_pos (⟨by omega, h37⟩ : 2 < bytes.length ∧ bytes.getD 2 0 = 0x37)]
    exact ⟨⟨fun _ => h1, fun _ => rfl⟩, fun hc => absurd hc h1,
           ⟨fun _ => h1, fun _ => rfl⟩, fun hc => absurd hc h1⟩

/-- Witness for the amended C4 at the concrete ambiguous frame. -/
theorem ack_classification_depends_on_first_byte_witness :
    (classifyBinaryFrame ambiguousAckFrame = FrameClass.ack ↔
      ambiguousAckFrame.getD 0 0 ≠ 1) ∧
    (ambiguousAckFrame.getD 0 0 = 1 →
      classifyBinaryFrame ambiguousAckFrame = FrameClass.tick) ∧
    (classifyLTPBinaryFrame ambiguousAckFrame = FrameClass.ack ↔
      ambiguousAckFrame.getD 0 0 ≠ 1) ∧
    (ambiguousAckFrame.getD 0 0 = 1 →
      classifyLTPBinaryFrame ambiguousAckFrame = FrameClass.tick) :=
  ack_classification_depends_on_first_byte ambiguousAckFrame (by decide) (by decide)

/-! ## Theorems: reconnect policy -/

/-- Claim C5: within one connection epoch the attempt counter never exceeds
10; a scheduled reconnect for attempt k waits 5000 ms times 1.5 to the power
k minus 1; and once the cap is reached the handler gives up, logging the
unrecoverable maximum-attempts error instead of scheduling anything. -/
theorem reconnect_policy :
    (∀ n, reconnectAttemptsAfter n ≤ MAX_RECONNECT_ATTEMPTS) ∧
    (∀ s a d, handleLTPReconnect s = (a, ReconnectAction.scheduled d) →
      a = s + 1 ∧ a ≤ MAX_RECONNECT_ATTEMPTS ∧
      d = RECONNECT_DELAY * (3 / 2 : ℚ) ^ (a - 1)) ∧
    (∀ s, MAX_RECONNECT_ATTEMPTS ≤ s →
      handleLTPReconnect s = (s, ReconnectAction.gaveUp)) := by
  refine ⟨?_, ?_, ?_⟩
  · intro n
    induction n with
    | zero => simp [reconnectAttemptsAfter, MAX_RECONNECT_ATTEMPTS]
    | succ n ih =>
      simp only [reconnectAttemptsAfter, handleLTPReconnect]
      split
      · rename_i hlt
        exact hlt
      · exact ih
  · intro s a d h
    unfold handleLTPReconnect at h
    split at h
    · rename_i hlt
      injection h with h1 h2
      subst h1
      injection h2 with h3
      subst h3
      refine ⟨rfl, hlt, ?_⟩
      norm_num
    · simp at h
  · intro s hs
    unfold handleLTPReconnect
    rw [if_neg (by omega)]

/-- Witness for C5: fifteen invocations stay at the cap of 10, the first
attempt is scheduled after exactly 5000 ms, and at the cap the handler gives
up. -/
theorem reconnect_policy_witness :
    reconnectAttemptsAfter 15 ≤ MAX_RECONNECT_ATTEMPTS ∧
    (1 = 0 + 1 ∧ 1 ≤ MAX_RECONNECT_ATTEMPTS ∧
      (5000 : ℚ) = RECONNECT_DELAY * (3 / 2 : ℚ) ^ (1 - 1)) ∧
    handleLTPReconnect 10 = (10, ReconnectAction.gaveUp) :=
  ⟨reconnect_policy.1 15,
   reconnect_policy.2.1 0 1 5000
     (by norm_num [handleLTPReconnect, RECONNECT_DELAY, MAX_RECONNECT_ATTEMPTS]),
   reconnect_policy.2.2 10 (by norm_num [MAX_RECONNECT_ATTEMPTS])⟩

/-! ## Theorems: tick dispatcher -/

/-- Counterexample to claim C7: when the key/value-store write fails,
`updateSymbolPrice` logs the error and returns early, so the price:update
publish for that tick is never attempted. -/
theorem store_error_suppresses_publish :
    DispatchStep.storeWrite ∈ updateSymbolPriceTrace false true ∧
    DispatchStep.storeErrorLog ∈ updateSymbolPriceTrace false true ∧
    DispatchStep.publishPrice ∉ updateSymbolPriceTrace false true := by decide

/-- Claim C7 as amended: a publish failure is logged and stops nothing else,
but a store failure is logged and aborts the rest of `updateSymbolPrice`,
suppressing the price:update publish for that tick. -/
theorem dispatch_error_policy (publishOk : Bool) :
    DispatchStep.storeWrite ∈ updateSymbolPriceTrace true publishOk ∧
    DispatchStep.publishPrice ∈ updateSymbolPriceTrace true publishOk ∧
    DispatchStep.publishErrorLog ∈ updateSymbolPriceTrace true false ∧
    DispatchStep.publishPrice ∈ updateSymbolPriceTrace true false ∧
    DispatchStep.storeWrite ∈ updateSymbolPriceTrace false publishOk ∧
    DispatchStep.storeErrorLog ∈ updateSymbolPriceTrace false publishOk ∧
    DispatchStep.publishPrice ∉ updateSymbolPriceTrace false publishOk := by
  cases publishOk <;> decide

/-- Counterexample to claim C8: the latest-price snapshot for symbol X is
written under the key price:X, not under latest-price:X. -/
theorem latest_price_key_is_price_prefix :
    (updateSymbolPriceWrite "X" "101" exampleTick 0).1 = "price:X" ∧
    (updateSymbolPriceWrite "X" "101" exampleTick 0).1 ≠ "latest-price:X" := by
  constructor
  · rfl
  · decide

/-- Claim C8 as amended: for every tick the snapshot is written under the key
price: followed by the symbol (with the last price taken from the tick), and
for every snap-quote tick the depth snapshot is written under marketdepth:
followed by the symbol. -/
theorem dispatcher_store_keys (symbol token : String) (t : TickData)
    (bf : BestFiveData) (lp : ℚ) (now : Nat) :
    (updateSymbolPriceWrite symbol token t now).1 = "price:" ++ symbol ∧
    (updateSymbolPriceWrite symbol token t now).2.lastPrice = t.ltp.getD 0 ∧
    (updateMarketDepthWrite symbol token lp bf now).1 = "marketdepth:" ++ symbol :=
  ⟨rfl, rfl, rfl⟩

/-! ## Theorems: order-plan evaluator -/

/-- Counterexample to claim C1: for the BUY plan with entry 100, exit 90 and
status CREATED, the tick at price 95 satisfies the exit guard (price at or
above the exit price with status in the triggering set), yet the evaluator
sets ENTRY_TRIGGERED, because the else-if chain gives the entry rule
precedence. -/
theorem buy_overlap_entry_wins :
    overlapPlan.status = "CREATED" ∧ overlapPlan.transactiontype = "BUY" ∧
    overlapPlan.entry_price = some 100 ∧ overlapPlan.exit_price ≤ 95 ∧
    (95 : ℚ) ≤ 100 ∧
    planStatusAfter overlapPlan 95 0 = "ENTRY_TRIGGERED" ∧
    planStatusAfter overlapPlan 95 0 ≠ "EXIT_TRIGGERED" := by decide

/-- Claim C1 as amended: provided the plan carries an entry price, a BUY plan
in status CREATED with price at or below entry moves to ENTRY_TRIGGERED; a
BUY plan in status CREATED or ENTRY_TRIGGERED with price at or above exit
moves to EXIT_TRIGGERED unless the entry rule fires first (the else-if chain
gives entry precedence); and symmetrically for a SELL plan with the
comparisons mirrored. -/
theorem updateOrderPlanPrice_transitions (plan : OrderPlan) (P E : ℚ) (now : Nat)
    (hE : plan.entry_price = some E) :
    (plan.transactiontype = "BUY" →
      (plan.status = "CREATED" → P ≤ E →
        planStatusAfter plan P now = "ENTRY_TRIGGERED") ∧
      ((plan.status = "CREATED" ∨ plan.status = "ENTRY_TRIGGERED") →
        plan.exit_price ≤ P → ¬(plan.status = "CREATED" ∧ P ≤ E) →
        planStatusAfter plan P now = "EXIT_TRIGGERED")) ∧
    (plan.transactiontype = "SELL" →
      (plan.status = "CREATED" → E ≤ P →
        planStatusAfter plan P now = "ENTRY_TRIGGERED") ∧
      ((plan.status = "CREATED" ∨ plan.status = "ENTRY_TRIGGERED") →
        P ≤ plan.exit_price → ¬(plan.status = "CREATED" ∧ E ≤ P) →
        planStatusAfter plan P now = "EXIT_TRIGGERED")) := by
  constructor
  · intro htx
    constructor
    · intro hst hPE
      simp [planStatusAfter, updateOrderPlanPrice, hE, htx, hst, hPE]
    · rintro (hst | hst) hX hneg
      · have hnPE : ¬ P ≤ E := fun hPE => hneg ⟨hst, hPE⟩
        simp [planStatusAfter, updateOrderPlanPrice, hE, htx, hst, hX, hnPE]
      · simp [planStatusAfter, updateOrderPlanPrice, hE, htx, hst, hX]
  · intro htx
    have hnb : plan.transactiontype ≠ "BUY" := by rw [htx]; decide
    constructor
    · intro hst hPE
      simp [planStatusAfter, updateOrderPlanPrice, hE, hnb, hst, hPE]
    · rintro (hst | hst) hX hneg
      · have hnPE : ¬ E ≤ P := fun hPE => hneg ⟨hst, hPE⟩
        simp [planStatusAfter, updateOrderPlanPrice, hE, hnb, hst, hX, hnPE]
      · simp [planStatusAfter, updateOrderPlanPrice, hE, hnb, hst, hX]

/-- Witness for the amended C1: the BUY plan triggers entry at 99, the
already entry-triggered BUY plan triggers exit at 111, and the SELL plan
triggers entry at 101. -/
theorem updateOrderPlanPrice_transitions_witness :
    planStatusAfter buyPlan 99 0 = "ENTRY_TRIGGERED" ∧
    planStatusAfter triggeredPlan 111 0 = "EXIT_TRIGGERED" ∧
    planStatusAfter sellPlan 101 0 = "ENTRY_TRIGGERED" :=
  ⟨((updateOrderPlanPrice_transitions buyPlan 99 100 0 rfl).1 rfl).1 rfl (by decide),
   ((updateOrderPlanPrice_transitions triggeredPlan 111 100 0 rfl).1 rfl).2
     (Or.inr rfl) (by decide) (fun hc => absurd hc.1 (by decide)),
   ((updateOrderPlanPrice_transitions sellPlan 101 100 0 rfl).2 rfl).1 rfl (by decide)⟩

/-- Claim C9: a plan in a terminal status (EXECUTED, CANCELLED or FAILED)
never changes status on any evaluated tick, while the evaluator still sets
the current price to the tick price and refreshes the last-updated field. -/
theorem terminal_status_preserved (plan : OrderPlan) (ltp : ℚ) (now : Nat)
    (hterm : plan.status = "EXECUTED" ∨ plan.status = "CANCELLED" ∨
      plan.status = "FAILED") :
    (updateOrderPlanPrice plan ltp now).status = none ∧
    planStatusAfter plan ltp now = plan.status ∧
    (updateOrderPlanPrice plan ltp now).currentPrice = ltp ∧
    (updateOrderPlanPrice plan ltp now).lastUpdated = now := by
  have hstat : (updateOrderPlanPrice plan ltp now).status = none := by
    rcases hterm with h | h | h <;>
      · cases hEp : plan.entry_price with
        | none => simp [updateOrderPlanPrice, hEp]
        | some e => simp [updateOrderPlanPrice, hEp, h]
  exact ⟨hstat, by simp [planStatusAfter, hstat], rfl, rfl⟩

/-- Witness for C9: the executed BUY plan at tick price 95 keeps status
EXECUTED while current price and last-updated are refreshed. -/
theorem terminal_status_preserved_witness :
    (updateOrderPlanPrice executedPlan 95 7).status = none ∧
    planStatusAfter executedPlan 95 7 = executedPlan.status ∧
    (updateOrderPlanPrice executedPlan 95 7).currentPrice = 95 ∧
    (updateOrderPlanPrice executedPlan 95 7).lastUpdated = 7 :=
  terminal_status_preserved executedPlan 95 7 (Or.inl rfl)

/-! ## Theorems: best-five extraction -/

/-- In-bounds entries read successfully, with all four fields at their
offsets. -/
lemma entryAt_eq (bytes : List Nat) (pos : Nat) (h : pos + 20 ≤ bytes.length) :
    entryAt bytes pos = some
      ⟨toSigned 16 (leNat ((bytes.drop pos).take 2)),
       toSigned 64 (leNat ((bytes.drop (pos + 2)).take 8)),
       toSigned 64 (leNat ((bytes.drop (pos + 10)).take 8)),
       toSigned 16 (leNat ((bytes.drop (pos + 18)).take 2))⟩ := by
  unfold entryAt readInt16LE readBigInt64LE readLE
  rw [if_pos (show pos + 2 ≤ bytes.length by omega),
      if_pos (show pos + 2 + 8 ≤ bytes.length by omega),
      if_pos (show pos + 10 + 8 ≤ bytes.length by omega),
      if_pos (show pos + 18 + 2 ≤ bytes.length by omega)]
  rfl

/-- When every listed index is in bounds, collecting never raises and yields
exactly the entries at those indexes. -/
lemma collectEntries_ok (bytes : List Nat) (startPosition : Nat) (l : List Nat)
    (h : ∀ i ∈ l, startPosition + i * 20 + 20 ≤ bytes.length) :
    collectEntries bytes startPosition l =
      .ok (l.filterMap (fun i => entryAt bytes (startPosition + i * 20))) := by
  induction l with
  | nil => rfl
  | cons i is ih =>
    have hb := h i (List.mem_cons_self i is)
    have he := entryAt_eq bytes (startPosition + i * 20) (by omega)
    simp [collectEntries, he, ih (fun j hj => h j (List.mem_cons_of_mem _ hj)),
      List.filterMap_cons, Except.map]

/-- Closed form of the extraction body: it never raises, and produces the
sorted, truncated lists built from the in-bounds raw entries. -/
lemma extractBestFiveDataCore_ok (bytes : List Nat) (startPosition : Nat) :
    extractBestFiveDataCore bytes startPosition = .ok
      ⟨(List.insertionSort (fun a b => b.price ≤ a.price)
          (((rawEntriesOf bytes startPosition).filter
            (fun e => e.buyFlag == 1)).map toLevel)).take 5,
       (List.insertionSort (fun a b => a.price ≤ b.price)
          (((rawEntriesOf bytes startPosition).filter
            (fun e => e.buyFlag == 0)).map toLevel)).take 5⟩ := by
  have hmem : ∀ i ∈ depthPositions bytes startPosition,
      startPosition + i * 20 + 20 ≤ bytes.length := by
    intro i hi
    have h2 := List.mem_takeWhile_imp hi
    simpa using h2
  rw [extractBestFiveDataCore, collectEntries_ok bytes startPosition _ hmem]
  rfl

/-- The wrapper agrees with the closed form. -/
lemma extractBestFiveData_eq (bytes : List Nat) (startPosition : Nat) :
    extractBestFiveData bytes startPosition =
      ⟨(List.insertionSort (fun a b => b.price ≤ a.price)
          (((rawEntriesOf bytes startPosition).filter
            (fun e => e.buyFlag == 1)).map toLevel)).take 5,
       (List.insertionSort (fun a b => a.price ≤ b.price)
          (((rawEntriesOf bytes startPosition).filter
            (fun e => e.buyFlag == 0)).map toLevel)).take 5⟩ := by
  unfold extractBestFiveData
  rw [extractBestFiveDataCore_ok]

/-- Claim C10: the best-five extraction is total. For every input buffer and
start position the guarded body runs without raising and the function
returns its value, so nothing ever escapes to the caller; the catch clause
in `extractBestFiveData` returns the empty structure on an internal
extraction error. -/
theorem extractBestFiveData_total (bytes : List Nat) (startPosition : Nat) :
    extractBestFiveDataCore bytes startPosition =
      Except.ok (extractBestFiveData bytes startPosition) := by
  rw [extractBestFiveDataCore_ok, extractBestFiveData_eq]

/-- Claim C3: for every buffer and start position the decoded best-five
table skips every raw entry whose side flag is neither 0 nor 1 (each output
level comes from a collected raw entry with the matching flag), the buy list
is sorted by price descending, the sell list is sorted by price ascending,
and each list has at most 5 entries. -/
theorem bestFive_sorted_bounded_filtered (bytes : List Nat) (startPosition : Nat) :
    (extractBestFiveData bytes startPosition).buy.length ≤ 5 ∧
    (extractBestFiveData bytes startPosition).sell.length ≤ 5 ∧
    List.Pairwise (fun a b => b.price ≤ a.price)
      (extractBestFiveData bytes startPosition).buy ∧
    List.Pairwise (fun a b => a.price ≤ b.price)
      (extractBestFiveData bytes startPosition).sell ∧
    (extractBestFiveData bytes startPosition).buy.Forall
      (fun lv => ∃ e ∈ rawEntriesOf bytes startPosition,
        e.buyFlag = 1 ∧ lv = toLevel e) ∧
    (extractBestFiveData bytes startPosition).sell.Forall
      (fun lv => ∃ e ∈ rawEntriesOf bytes startPosition,
        e.buyFlag = 0 ∧ lv = toLevel e) := by
  rw [extractBestFiveData_eq]
  refine ⟨by simp, by simp, ?_, ?_, ?_, ?_⟩
  · haveI : IsTotal BestFiveLevel (fun a b => b.price ≤ a.price) :=
      ⟨fun a b => le_total b.price a.price⟩
    haveI : IsTrans BestFiveLevel (fun a b => b.price ≤ a.price) :=
      ⟨fun a b c hab hbc => le_trans hbc hab⟩
    exact List.Pairwise.sublist (List.take_sublist 5 _) (List.sorted_insertionSort _ _)
  · haveI : IsTotal BestFiveLevel (fun a b => a.price ≤ b.price) :=
      ⟨fun a b => le_total a.price b.price⟩
    haveI : IsTrans BestFiveLevel (fun a b => a.price ≤ b.price) :=
      ⟨fun a b c hab hbc => le_trans hab hbc⟩
    exact List.Pairwise.sublist (List.take_sublist 5 _) (List.sorted_insertionSort _ _)
  · rw [List.forall_iff_forall_mem]
    intro lv hlv
    have h1 := (List.take_sublist 5 _).subset hlv
    have h2 := (List.perm_insertionSort
      (fun a b : BestFiveLevel => b.price ≤ a.price) _).mem_iff.1 h1
    obtain ⟨e, he, rfl⟩ := List.mem_map.1 h2
    obtain ⟨hemem, hflag⟩ := List.mem_filter.1 he
    exact ⟨e, hemem, by simpa using hflag, rfl⟩
  · rw [List.forall_iff_forall_mem]
    intro lv hlv
    have h1 := (List.take_sublist 5 _).subset hlv
    have h2 := (List.perm_insertionSort
      (fun a b : BestFiveLevel => a.price ≤ b.price) _).mem_iff.1 h1
    obtain ⟨e, he, rfl⟩ := List.mem_map.1 h2
    obtain ⟨hemem, hflag⟩ := List.mem_filter.1 he
    exact ⟨e, hemem, by simpa using hflag, rfl⟩

/-! ## Theorems: subscription registry -/

/-- A lookup misses exactly when no entry has the key. -/
lemma mapGet_eq_none_iff {α : Type} (m : List (String × α)) (k : String) :
    mapGet m k = none ↔ ∀ e ∈ m, e.1 ≠ k := by
  simp [mapGet, List.find?_eq_none]

/-- Lookup of the distinguished middle entry when everything before it has a
different key. -/
lemma mapGet_middle {α : Type} (l1 l2 : List (String × α)) (k : String) (v : α)
    (h : ∀ e ∈ l1, e.1 ≠ k) :
    mapGet (l1 ++ (k, v) :: l2) k = some v := by
  induction l1 with
  | nil =>
    unfold mapGet
    rw [List.nil_append]
    simp [List.find?]
  | cons e l ih =>
    have he : (e.1 == k) = false := by
      simp [h e (List.mem_cons_self _ _)]
    have ih2 := ih (fun x hx => h x (List.mem_cons_of_mem _ hx))
    rw [List.cons_append]
    unfold mapGet
    simp only [List.find?, he]
    exact ih2

/-- Map.set appends when the key is absent. -/
lemma mapSet_absent {α : Type} (m : List (String × α)) (k : String) (v : α)
    (h : mapGet m k = none) : mapSet m k v = m ++ [(k, v)] := by
  have h2 : m.find? (fun e => e.1 == k) = none := by
    simpa [mapGet] using h
  unfold mapSet
  rw [h2]
  rfl

/-- Replacing every entry with a different key is the identity. -/
lemma map_setEntry_id {α : Type} (l : List (String × α)) (k : String) (w : α)
    (h : ∀ e ∈ l, e.1 ≠ k) :
    l.map (fun e => if e.1 == k then (k, w) else e) = l := by
  induction l with
  | nil => rfl
  | cons e l ih =>
    have he : e.1 ≠ k := h e (List.mem_cons_self _ _)
    rw [List.map_cons, ih (fun x hx => h x (List.mem_cons_of_mem _ hx))]
    simp [he]

/-- Map.set replaces in place the unique entry with the key. -/
lemma mapSet_middle {α : Type} (l1 l2 : List (String × α)) (k : String) (v w : α)
    (h1 : ∀ e ∈ l1, e.1 ≠ k) (h2 : ∀ e ∈ l2, e.1 ≠ k) :
    mapSet (l1 ++ (k, v) :: l2) k w = l1 ++ (k, w) :: l2 := by
  have h3 := mapGet_middle l1 l2 k v h1
  unfold mapGet at h3
  have hfind : ((l1 ++ (k, v) :: l2).find? (fun e => e.1 == k)).isSome = true := by
    cases hf : (l1 ++ (k, v) :: l2).find? (fun e => e.1 == k) with
    | none => rw [hf] at h3; simp at h3
    | some e => rfl
  unfold mapSet
  rw [if_pos hfind, List.map_append, map_setEntry_id l1 k w h1, List.map_cons,
      map_setEntry_id l2 k w h2]
  simp

/-- Map.delete of a last appended entry restores the original list when no
earlier entry has the key. -/
lemma mapDelete_append_last {α : Type} (m : List (String × α)) (k : String) (v : α)
    (h : ∀ e ∈ m, e.1 ≠ k) :
    mapDelete (m ++ [(k, v)]) k = m := by
  unfold mapDelete
  rw [List.filter_append]
  have h1 : m.filter (fun e => !(e.1 == k)) = m :=
    List.filter_eq_self.2 (fun e he => by simpa using h e he)
  simp [h1]

/-- A successful lookup in a map with unique keys splits the list around the
unique entry with that key. -/
lemma mapGet_some_decomp {α : Type} (m : List (String × α)) (k : String) (v : α)
    (h : mapGet m k = some v) (hnd : (m.map Prod.fst).Nodup) :
    ∃ l1 l2, m = l1 ++ (k, v) :: l2 ∧ (∀ e ∈ l1, e.1 ≠ k) ∧ (∀ e ∈ l2, e.1 ≠ k) := by
  induction m with
  | nil => simp [mapGet] at h
  | cons e m ih =>
    rw [List.map_cons, List.nodup_cons] at hnd
    by_cases hek : e.1 = k
    · have hbe : (e.1 == k) = true := by simpa using hek
      have hv : mapGet (e :: m) k = some e.2 := by
        unfold mapGet
        simp only [List.find?, hbe]
        rfl
      rw [hv] at h
      obtain rfl := Option.some.inj h
      refine ⟨[], m, ?_, by simp, ?_⟩
      · rw [List.nil_append]
        obtain ⟨e1, e2⟩ := e
        simp only at hek
        rw [hek]
      · intro x hx hxk
        apply hnd.1
        rw [hek, ← hxk]
        exact List.mem_map_of_mem Prod.fst hx
    · have hbe : (e.1 == k) = false := by simp [hek]
      have h2 : mapGet m k = some v := by
        unfold mapGet at h ⊢
        simp only [List.find?, hbe] at h
        exact h
      obtain ⟨l1, l2, rfl, hfa, hfb⟩ := ih h2 hnd.2
      refine ⟨e :: l1, l2, rfl, ?_, hfb⟩
      intro x hx
      rcases List.mem_cons.1 hx with rfl | hx2
      exacts [hek, hfa x hx2]

/-- The removal loop skips every entry whose plan set misses the plan id. -/
lemma unsubscribeLoop_skip (planId : String) (ws : Bool)
    (l : List (String × List String)) (st : Registry) (evs : List FeedMsg)
    (h : ∀ e ∈ l, planId ∉ e.2) :
    unsubscribeLoop planId ws l st evs = (st, evs) := by
  induction l with
  | nil => rfl
  | cons e rest ih =>
    obtain ⟨token, planIds⟩ := e
    have hni : planId ∉ planIds := h _ (List.mem_cons_self _ _)
    rw [unsubscribeLoop, if_neg hni]
    exact ih (fun x hx => h x (List.mem_cons_of_mem _ hx))

/-- The removal loop passes unchanged over a prefix that misses the plan id. -/
lemma unsubscribeLoop_append_skip (planId : String) (ws : Bool)
    (l1 l2 : List (String × List String)) (st : Registry) (evs : List FeedMsg)
    (h : ∀ e ∈ l1, planId ∉ e.2) :
    unsubscribeLoop planId ws (l1 ++ l2) st evs = unsubscribeLoop planId ws l2 st evs := by
  induction l1 with
  | nil => rfl
  | cons e rest ih =>
    obtain ⟨token, planIds⟩ := e
    rw [List.cons_append, unsubscribeLoop, if_neg (h _ (List.mem_cons_self _ _))]
    exact ih (fun x hx => h x (List.mem_cons_of_mem _ hx))

/-- Set.add appends a fresh element. -/
lemma setAdd_not_mem (s : List String) (p : String) (h : p ∉ s) :
    setAdd s p = s ++ [p] := by
  simp [setAdd, h]

/-- Set.delete of a freshly appended element restores the set. -/
lemma setDelete_append (s : List String) (p : String) (h : p ∉ s) :
    setDelete (s ++ [p]) p = s := by
  rw [setDelete, List.erase_append_right _ h, List.erase_cons_head, List.append_nil]

/-- One removal step on a hit whose set becomes empty: the unsubscribe is
sent (socket open, symbol still indexed) and all three entries are deleted. -/
lemma unsubscribeLoop_hit_empty (planId token sym : String)
    (rest : List (String × List String)) (st : Registry) (evs : List FeedMsg)
    (planIds : List String) (hmem : planId ∈ planIds)
    (hdel : setDelete planIds planId = [])
    (hsym : mapGet st.tokenToSymbolMap token = some sym) :
    unsubscribeLoop planId true ((token, planIds) :: rest) st evs =
      unsubscribeLoop planId true rest
        ⟨mapDelete st.subscriptions token, mapDelete st.tokenToSymbolMap token,
         mapDelete st.symbolToTokenMap sym⟩
        (evs ++ [FeedMsg.unsubscribe token]) := by
  rw [unsubscribeLoop, if_pos hmem]
  simp [hdel, hsym]

/-- One removal step on a hit whose set stays non-empty: nothing is sent and
only the subscription set shrinks. -/
lemma unsubscribeLoop_hit_nonempty (planId token : String)
    (rest : List (String × List String)) (st : Registry) (evs : List FeedMsg)
    (planIds : List String) (hmem : planId ∈ planIds)
    (hne : setDelete planIds planId ≠ []) :
    unsubscribeLoop planId true ((token, planIds) :: rest) st evs =
      unsubscribeLoop planId true rest
        { st with subscriptions := mapSet st.subscriptions token (setDelete planIds planId) }
        evs := by
  rw [unsubscribeLoop, if_pos hmem]
  have h2 : (setDelete planIds planId).isEmpty = false := by
    cases hL : setDelete planIds planId with
    | nil => exact absurd hL hne
    | cons a l => rfl
  simp [h2]

/-- Claim C6: on a well-formed registry state (unique map keys, indexes
consistent at the token, plan id fresh), Add of the plan on the token
followed by Remove of the plan leaves the whole registry exactly as it was,
and this pair emits a subscribe followed by an unsubscribe for the token if
and only if the token had no other plan-id holders before the Add. Both
connections are READY and the socket open, so side-effects are observable. -/
theorem registry_add_remove_roundtrip (reg : Registry) (planId token symbol : String)
    (hwf : RegistryWF reg) (hcons : ConsistentAt reg token symbol)
    (hfresh : planFresh reg planId) :
    (unsubscribeFromOrderPlan
      (subscribeToOrderPlan reg planId token symbol true true).1 planId true).1 = reg ∧
    ((FeedMsg.subscribeLTP token ∈ (subscribeToOrderPlan reg planId token symbol true true).2 ∧
      FeedMsg.unsubscribe token ∈ (unsubscribeFromOrderPlan
        (subscribeToOrderPlan reg planId token symbol true true).1 planId true).2) ↔
      mapGet reg.subscriptions token = none) := by
  obtain ⟨hnd1, hnd2, hnd3⟩ := hwf
  cases hsub : mapGet reg.subscriptions token with
  | none =>
    have hcons2 : mapGet reg.tokenToSymbolMap token = none ∧
        mapGet reg.symbolToTokenMap symbol = none := by
      simpa [ConsistentAt, hsub] using hcons
    obtain ⟨ht2s, hs2t⟩ := hcons2
    have hfr1 : ∀ e ∈ reg.subscriptions, e.1 ≠ token := (mapGet_eq_none_iff _ _).1 hsub
    have hfr2 : ∀ e ∈ reg.tokenToSymbolMap, e.1 ≠ token := (mapGet_eq_none_iff _ _).1 ht2s
    have hfr3 : ∀ e ∈ reg.symbolToTokenMap, e.1 ≠ symbol := (mapGet_eq_none_iff _ _).1 hs2t
    have hsub0 : mapSet reg.subscriptions token [] = reg.subscriptions ++ [(token, [])] :=
      mapSet_absent _ _ _ hsub
    have hget0 : mapGet (reg.subscriptions ++ [(token, [])]) token = some [] :=
      mapGet_middle _ [] token [] hfr1
    have hset1 : mapSet (reg.subscriptions ++ [(token, [])]) token [planId] =
        reg.subscriptions ++ [(token, [planId])] :=
      mapSet_middle _ [] token [] [planId] hfr1 (by simp)
    have hinit : initTokenSet reg token = reg.subscriptions ++ [(token, [])] := by
      unfold initTokenSet
      rw [hsub, hsub0]
      rfl
    have hadd : subscribeToOrderPlan reg planId token symbol true true =
        (⟨reg.subscriptions ++ [(token, [planId])],
          reg.tokenToSymbolMap ++ [(token, symbol)],
          reg.symbolToTokenMap ++ [(symbol, token)]⟩,
         [FeedMsg.subscribeLTP token, FeedMsg.subscribeDepth token]) := by
      unfold subscribeToOrderPlan
      rw [hinit, hget0, mapSet_absent _ _ _ ht2s, mapSet_absent _ _ _ hs2t]
      simp only [Option.getD_some, setAdd, List.not_mem_nil, if_false, List.nil_append,
        hset1, if_true, List.cons_append]
    rw [hadd]
    unfold unsubscribeFromOrderPlan
    rw [show (⟨reg.subscriptions ++ [(token, [planId])],
          reg.tokenToSymbolMap ++ [(token, symbol)],
          reg.symbolToTokenMap ++ [(symbol, token)]⟩ : Registry).subscriptions =
        reg.subscriptions ++ [(token, [planId])] from rfl,
      unsubscribeLoop_append_skip planId true reg.subscriptions _ _ [] hfresh,
      unsubscribeLoop_hit_empty planId token symbol [] _ [] [planId] (by simp)
        (by simp [setDelete]) (mapGet_middle _ [] token symbol hfr2)]
    rw [show ∀ st : Registry, ∀ evs, unsubscribeLoop planId true [] st evs = (st, evs)
        from fun st evs => rfl]
    constructor
    · simp only [mapDelete_append_last _ _ _ hfr1, mapDelete_append_last _ _ _ hfr2,
        mapDelete_append_last _ _ _ hfr3]
    · simp
  | some L =>
    have hcons2 : L ≠ [] ∧ mapGet reg.tokenToSymbolMap token = some symbol ∧
        mapGet reg.symbolToTokenMap symbol = some token := by
      simpa [ConsistentAt, hsub] using hcons
    obtain ⟨hL, ht2s, hs2t⟩ := hcons2
    obtain ⟨l1, l2, hdecomp, hf1, hf2⟩ := mapGet_some_decomp _ _ _ hsub hnd1
    have hpL : planId ∉ L := hfresh (token, L) (by rw [hdecomp]; simp)
    obtain ⟨m1, m2, hd2, hg1, hg2⟩ := mapGet_some_decomp _ _ _ ht2s hnd2
    have et2s : mapSet reg.tokenToSymbolMap token symbol = reg.tokenToSymbolMap := by
      rw [hd2]
      exact mapSet_middle m1 m2 token symbol symbol hg1 hg2
    obtain ⟨n1, n2, hd3, hh1, hh2⟩ := mapGet_some_decomp _ _ _ hs2t hnd3
    have es2t : mapSet reg.symbolToTokenMap symbol token = reg.symbolToTokenMap := by
      rw [hd3]
      exact mapSet_middle n1 n2 symbol token token hh1 hh2
    have hset1 : mapSet reg.subscriptions token (L ++ [planId]) =
        l1 ++ (token, L ++ [planId]) :: l2 := by
      rw [hdecomp]
      exact mapSet_middle l1 l2 token L (L ++ [planId]) hf1 hf2
    have hinit : initTokenSet reg token = reg.subscriptions := by
      unfold initTokenSet
      rw [hsub]
      rfl
    have hadd : subscribeToOrderPlan reg planId token symbol true true =
        (⟨l1 ++ (token, L ++ [planId]) :: l2,
          reg.tokenToSymbolMap, reg.symbolToTokenMap⟩,
         [FeedMsg.subscribeLTP token, FeedMsg.subscribeDepth token]) := by
      unfold subscribeToOrderPlan
      rw [hinit, hsub, et2s, es2t]
      simp only [Option.getD_some, setAdd_not_mem L planId hpL, hset1, if_true]
      rfl
    rw [hadd]
    unfold unsubscribeFromOrderPlan
    have hfrl1 : ∀ e ∈ l1, planId ∉ e.2 := fun e he =>
      hfresh e (by rw [hdecomp]; exact List.mem_append_left _ he)
    have hfrl2 : ∀ e ∈ l2, planId ∉ e.2 := fun e he =>
      hfresh e (by rw [hdecomp]; exact List.mem_append_right _ (List.mem_cons_of_mem _ he))
    rw [show (⟨l1 ++ (token, L ++ [planId]) :: l2,
          reg.tokenToSymbolMap, reg.symbolToTokenMap⟩ : Registry).subscriptions =
        l1 ++ (token, L ++ [planId]) :: l2 from rfl,
      unsubscribeLoop_append_skip planId true l1 _ _ [] hfrl1,
      unsubscribeLoop_hit_nonempty planId token l2 _ [] (L ++ [planId]) (by simp)
        (by rw [setDelete_append L planId hpL]; exact hL),
      unsubscribeLoop_skip planId true l2 _ [] hfrl2]
    constructor
    · have hres : mapSet (l1 ++ (token, L ++ [planId]) :: l2) token
          (setDelete (L ++ [planId]) planId) = reg.subscriptions := by
        rw [setDelete_append L planId hpL,
          mapSet_middle l1 l2 token (L ++ [planId]) L hf1 hf2, hdecomp]
      simp only [hres]
    · simp [hsub]

/-- Witness for C6 at two concrete registries: the empty registry, where the
pair emits subscribe then unsubscribe for token 101, and the registry where
plan p0 already holds token 101, where it does not. -/
theorem registry_add_remove_roundtrip_witness :
    ((unsubscribeFromOrderPlan
        (subscribeToOrderPlan ⟨[], [], []⟩ "p1" "101" "X" true true).1 "p1" true).1 =
      (⟨[], [], []⟩ : Registry) ∧
     ((FeedMsg.subscribeLTP "101" ∈
         (subscribeToOrderPlan ⟨[], [], []⟩ "p1" "101" "X" true true).2 ∧
       FeedMsg.unsubscribe "101" ∈ (unsubscribeFromOrderPlan
         (subscribeToOrderPlan ⟨[], [], []⟩ "p1" "101" "X" true true).1 "p1" true).2) ↔
       mapGet (⟨[], [], []⟩ : Registry).subscriptions "101" = none)) ∧
    ((unsubscribeFromOrderPlan
        (subscribeToOrderPlan occupiedRegistry "p1" "101" "X" true true).1 "p1" true).1 =
      occupiedRegistry ∧
     ((FeedMsg.subscribeLTP "101" ∈
         (subscribeToOrderPlan occupiedRegistry "p1" "101" "X" true true).2 ∧
       FeedMsg.unsubscribe "101" ∈ (unsubscribeFromOrderPlan
         (subscribeToOrderPlan occupiedRegistry "p1" "101" "X" true true).1 "p1" true).2) ↔
       mapGet occupiedRegistry.subscriptions "101" = none)) :=
  ⟨registry_add_remove_roundtrip ⟨[], [], []⟩ "p1" "101" "X"
      ⟨List.nodup_nil, List.nodup_nil, List.nodup_nil⟩ ⟨rfl, rfl⟩
      (fun e he => absurd he (List.not_mem_nil e)),
   registry_add_remove_roundtrip occupiedRegistry "p1" "101" "X"
      ⟨by simp [occupiedRegistry], by simp [occupiedRegistry], by simp [occupiedRegistry]⟩
      ⟨by simp, rfl, rfl⟩
      (by unfold planFresh occupiedRegistry; decide)⟩
